import Mathlib

/-!
Shallow embedding of the superhub hosting-go client library.

The embedding follows the Go sources:
  * auth (Credentials / EmptyCredentials / PersistentToken)
  * client.go (Client, GetCredentials, GetBaseURL, GetEndpointURL)
  * request.go (InvokeEndpoint, InvokeVoidEndpoint, marshalRequestBody,
    ProcessRequest, handleResponse, handleErrorResponse, parseResponse,
    parseResponseJSON, getContentType)

Machine representation choices: Go strings are Lean `String`; an HTTP
header map is an association list with first-entry-wins lookup (Go's
`http.Header.Set` / `Header.Get` on already-canonical keys); a Go
`(value *T, err error)` pair is `Option T × Option GoErr`; the Go `nil`
interface held in `Client.Credentials` is `Option Credentials` with `none`
for nil; a call that panics at runtime (a nil-interface method call) is
the distinguished `GoResult.panicked`.
External collaborators (the HTTP transport `http.Client.Do` and the
generic `encoding/json` codec) are parameters of the pipeline functions,
mirroring their role as injected behaviour behind `any` / generics.
-/

namespace Superhub

/-! ## HTTP headers, requests and responses -/

/-- Header lookup, modelling Go `http.Header.Get` for canonical keys: the
value of the first entry with this key, or the empty string when absent. -/
def headerGet (hs : List (String × String)) (k : String) : String :=
  match hs with
  | [] => ""
  | (k', v) :: rest => if k' = k then v else headerGet rest k

/-- Header update, modelling Go `http.Header.Set` for canonical keys:
replace the (first) entry with this key, or append a new entry. -/
def headerSet (hs : List (String × String)) (k v : String) : List (String × String) :=
  match hs with
  | [] => [(k, v)]
  | (k', v') :: rest => if k' = k then (k, v) :: rest else (k', v') :: headerSet rest k v

/-- An outbound HTTP request, as built by `http.NewRequest` plus header
edits: method, absolute URL, headers and the optional body stream's
contents. -/
structure Request where
  method : String
  url : String
  headers : List (String × String)
  body : Option String
deriving DecidableEq, Repr

/-- An HTTP response as the pipeline consumes it: numeric status code,
the raw status line (Go `response.Status`, e.g. "404 Not Found"),
headers and the fully read body (`io.ReadAll` is assumed to succeed:
the transport hands over the complete body). -/
structure Response where
  StatusCode : Nat
  Status : String
  Headers : List (String × String)
  Body : String
deriving DecidableEq, Repr

/-! ## Credentials (auth source file) -/

/-- Credential strategy: the closed set of implementations of the Go
`Credentials` interface - `EmptyCredentials` and `PersistentToken`
(a `uuid.UUID` is carried as its string rendering, which is how
`fmt.Sprintf("%s", p.ID)` uses it). -/
inductive Credentials where
  | empty
  | persistentToken (ID : String) (AccessToken : String)
deriving DecidableEq, Repr

/-- AuthorizeRequest: `EmptyCredentials` sets nothing; `PersistentToken`
sets the header "Authorization" to "Persistent " followed by the ID, and
the header "X-Access-Token" to the access token. -/
def authorizeRequest : Credentials → Request → Request
  | .empty, r => r
  | .persistentToken i s, r =>
    let r1 : Request := { r with headers := headerSet r.headers "Authorization" ("Persistent " ++ i) }
    { r1 with headers := headerSet r1.headers "X-Access-Token" s }

/-! ## Error values of the pipeline -/

/-- ErrorResponse, the fixed 4xx error body shape of request.go
(`time.Time` is carried as its wire string). -/
structure ErrorResponse where
  ErrorName : String
  Message : String
  Path : String
  Status : Int
  Timestamp : String
deriving DecidableEq, Repr

/-- GoErr enumerates the non-nil `error` values the pipeline can return,
each constructor carrying the payload its `fmt.Errorf` message embeds.
`requestErrorPtr` is a `*ErrorResponse` returned as an `error` interface:
`requestErrorPtr none` is the typed nil pointer in a non-nil interface
(the value `handleResponse` returns for a 4xx whose parse yielded
`(nil, nil)`); its `Error()` method would dereference a nil receiver, so
`fmt` formats the value as "<nil>" (package fmt recovers the nil-receiver
panic for nil pointer operands) instead of the data it should carry. -/
inductive GoErr where
  | endpointURL (msg : String)
  | marshalBody (msg : String)
  | transport (msg : String)
  | statusFallback (status : String)
  | requestErrorPtr (e : Option ErrorResponse)
  | serverFault (status : String)
  | parseBody (body : String)
  | unsupportedContentType (ct : String)
  | handling (e : GoErr)
deriving DecidableEq, Repr

/-- GoResult is the observable outcome of a pipeline call that in Go
returns `(*T, error)`: a returned pair (value pointer, error interface),
or a runtime panic. -/
inductive GoResult (T : Type) where
  | ret (value : Option T) (error : Option GoErr)
  | panicked
deriving DecidableEq, Repr

/-! ## Response classification (request.go) -/

/-- Declared content type of a response: `response.Header.Get("Content-Type")`,
the raw header value with no media-type parsing. -/
def getContentType (r : Response) : String :=
  headerGet r.Headers "Content-Type"

/-- Generic body decode, request.go `parseResponse[T]`: the body was read
in full; the raw Content-Type gates everything. "application/json" runs
the JSON decoder for T (`parseResponseJSON`, given here as the function
`dec`, with `none` for an Unmarshal error); an empty content type returns
`(nil, nil)`; anything else is an unsupported-content-type error. -/
def parseResponse {T : Type} (dec : String → Option T) (r : Response) :
    Option T × Option GoErr :=
  match getContentType r with
  | "application/json" =>
    match dec r.Body with
    | some v => (some v, none)
    | none => (none, some (.parseBody r.Body))
  | "" => (none, none)
  | ct => (none, some (.unsupportedContentType ct))

/-- handleErrorResponse: decode the body as the fixed error shape by
reusing `parseResponse` at `ErrorResponse`. -/
def handleErrorResponse (decErr : String → Option ErrorResponse) (r : Response) :
    Option ErrorResponse × Option GoErr :=
  parseResponse decErr r

/-- handleResponse: classify by status band. 400..499 parse the error
body - a parse error falls back to "unsuccessful HTTP status" with the
raw status line, otherwise the `*ErrorResponse` pointer (possibly nil) is
returned as the error. 500+ is "internal server error" with the raw
status line. Below 400 defers to `parseResponse`. -/
def handleResponse {T : Type} (dec : String → Option T)
    (decErr : String → Option ErrorResponse) (r : Response) :
    Option T × Option GoErr :=
  if 400 ≤ r.StatusCode ∧ r.StatusCode < 500 then
    match handleErrorResponse decErr r with
    | (_, some _) => (none, some (.statusFallback r.Status))
    | (errorResponse, none) => (none, some (.requestErrorPtr errorResponse))
  else if 500 ≤ r.StatusCode then
    (none, some (.serverFault r.Status))
  else
    parseResponse dec r

/-! ## POSIX path cleaning and joining (Go package `path`, as used by
client.go). Go's `path.Clean` scans the byte string segment by segment:
this embedding makes the segments explicit - split on the slash, process
the segment list (dropping empty and dot segments, resolving dot-dot),
and reassemble. -/

/-- Split a character list on the slash separator. The result is never
empty; splitting the empty list gives one empty segment. -/
def splitSegs : List Char → List (List Char)
  | [] => [[]]
  | c :: rest =>
    if c = '/' then [] :: splitSegs rest
    else
      match splitSegs rest with
      | [] => [[c]]
      | s :: ss => (c :: s) :: ss

/-- Segment processing of Go `path.Clean`: `acc` is the output stack
(reversed). Empty and "." segments are dropped; ".." pops a poppable
output segment, is dropped at the root of a rooted path, and is kept on a
relative path with nothing to pop. -/
def cleanSegs (rooted : Bool) : List (List Char) → List (List Char) → List (List Char)
  | acc, [] => acc.reverse
  | acc, s :: rest =>
    if s = [] ∨ s = ['.'] then cleanSegs rooted acc rest
    else if s = ['.', '.'] then
      match acc with
      | [] => if rooted then cleanSegs rooted [] rest else cleanSegs rooted [['.', '.']] rest
      | t :: acc' =>
        if t = ['.', '.'] then cleanSegs rooted (['.', '.'] :: t :: acc') rest
        else cleanSegs rooted acc' rest
    else cleanSegs rooted (s :: acc) rest

/-- Join a list of segments with slashes. -/
def interList : List (List Char) → List Char
  | [] => []
  | [s] => s
  | s :: ss => s ++ '/' :: interList ss

/-- Join a list of segment strings with slashes. -/
def interSegs : List String → String
  | [] => ""
  | [s] => s
  | s :: ss => s ++ "/" ++ interSegs ss

/-- Go `path.Clean` on a character list: rootedness is the leading slash;
the cleaned segment list is reassembled, with "/" (rooted) or "."
(relative) for an empty result and "." for the empty path. -/
def pathCleanList : List Char → List Char
  | [] => ['.']
  | c :: cs =>
    let rooted : Bool := c == '/'
    match cleanSegs rooted [] (splitSegs (c :: cs)) with
    | [] => if rooted then ['/'] else ['.']
    | segs => (if rooted then ['/'] else []) ++ interList segs

/-- Go `path.Clean` on strings. -/
def pathClean (s : String) : String :=
  String.mk (pathCleanList s.data)

/-- Go `path.Join` restricted to the two elements client.go passes:
skip empty elements, join the rest with a slash, and Clean the result;
all-empty input yields the empty string. -/
def pathJoin (a b : String) : String :=
  if a ≠ "" then pathClean (a ++ "/" ++ b)
  else if b ≠ "" then pathClean b
  else ""

/-! ## URL parsing and serialization (Go package `net/url`, as used by
client.go). The model covers the URLs `GetEndpointURL` actually handles:
`scheme://host[:port][/path]` with a lowercase-letter scheme, no user
info, query or fragment, and components made of unreserved characters,
on which Go's escaping is the identity. -/

/-- A parsed URL: the fields of `net/url.URL` this client reads or
writes. The host field carries any port. -/
structure GoURL where
  scheme : String
  host : String
  path : String
deriving DecidableEq, Repr

/-- Scheme splitting of `net/url.Parse` on the modelled domain: consume
characters up to the first colon (rejecting a slash before it, which in
full `net/url` would mean a scheme-less URL, an error for this model's
domain), and require "//" right after the colon. -/
def splitScheme : List Char → Option (List Char × List Char)
  | [] => none
  | c :: rest =>
    if c = ':' then
      match rest with
      | '/' :: '/' :: r => some ([], r)
      | _ => none
    else if c = '/' then none
    else (splitScheme rest).map fun p => (c :: p.1, p.2)

/-- Modelled `net/url.Parse` on the domain above: split off the scheme
(which must be non-empty), then the authority runs to the first slash and
the rest is the path. -/
def parseURL (s : String) : Option GoURL :=
  match splitScheme s.data with
  | none => none
  | some (sch, rest) =>
    if sch = [] then none
    else
      some { scheme := String.mk sch,
             host := String.mk (rest.takeWhile fun c => c != '/'),
             path := String.mk (rest.dropWhile fun c => c != '/') }

/-- Modelled `net/url.URL.String` for the same domain: scheme, "://",
host, then the path, with a slash inserted when the path is relative and
a host is present. -/
def urlString (u : GoURL) : String :=
  u.scheme ++ "://" ++ u.host ++
    (if u.path ≠ "" ∧ u.path.data.head? ≠ some '/' ∧ u.host ≠ "" then "/" else "") ++
    u.path

/-! ## Client (client.go) -/

/-- DefaultBaseURL of client.go. -/
def DefaultBaseURL : String := "https://api.superhub.host/v1"

/-- CredentialsType names the credentials type so that the `Client` field
below can keep the Go field name `Credentials` without shadowing it. -/
abbrev CredentialsType := Credentials

/-- Client: credential strategy (`none` is the Go nil interface) and base
URL (the zero value "" means unset). The `http.Client` handle is not
part of the state model; the transport is passed to the pipeline
functions directly. -/
structure Client where
  Credentials : Option CredentialsType
  BaseURL : String
deriving DecidableEq, Repr

/-- GetCredentials: the configured credentials, or `EmptyCredentials`
when the field is nil. -/
def Client.GetCredentials (c : Client) : CredentialsType :=
  match c.Credentials with
  | none => .empty
  | some creds => creds

/-- GetBaseURL: the configured base URL, or the default when unset. -/
def Client.GetBaseURL (c : Client) : String :=
  if c.BaseURL = "" then DefaultBaseURL else c.BaseURL

/-- GetEndpointURL: parse the base URL, join its path with the endpoint
via `path.Join`, and serialize. A parse failure is the "parsing url"
error, here `none`. -/
def Client.GetEndpointURL (c : Client) (endpoint : String) : Option String :=
  match parseURL c.GetBaseURL with
  | none => none
  | some u => some (urlString { u with path := pathJoin u.path endpoint })

/-! ## The request pipeline (request.go) -/

/-- Outcome of one `http.Client.Do` dispatch: a response, or a
transport-level failure with its message. -/
inductive TransportResult where
  | success (r : Response)
  | failure (msg : String)
deriving DecidableEq, Repr

/-- ProcessRequest: authorize the request with the client's `Credentials`
field - the Go code calls the interface method on the field itself, so a
nil interface is a nil-interface method call, a panic - then dispatch
over the transport (`Do`) and classify the response. A handleResponse
error is re-wrapped ("handling response: %s"), kept here structurally as
`GoErr.handling`. -/
def ProcessRequest {T : Type} (dec : String → Option T)
    (decErr : String → Option ErrorResponse)
    (Do : Request → TransportResult) (client : Client) (request : Request) :
    GoResult T :=
  match client.Credentials with
  | none => .panicked
  | some creds =>
    match Do (authorizeRequest creds request) with
    | .failure msg => .ret none (some (.transport msg))
    | .success response =>
      match handleResponse dec decErr response with
      | (_, some e) => .ret none (some (.handling e))
      | (data, none) => .ret data none

/-- marshalRequestBody: run the `json.Encoder` over the value (`enc`
models `Encoder.Encode`'s serialization, `none` for an encoding error)
into a buffer; `Encode` terminates the value with a newline. -/
def marshalRequestBody {B : Type} (enc : B → Option String) (b : B) : Option String :=
  match enc b with
  | none => none
  | some s => some (s ++ "\n")

/-- Request construction of InvokeEndpoint (its body up to the
`ProcessRequest` call): resolve the endpoint URL, optionally marshal the
body, build the request, and set "Content-Type: application/json"
exactly when a body reader was made. -/
def buildEndpointRequest {B : Type} (enc : B → Option String) (client : Client)
    (method path : String) (body : Option B) : Except GoErr Request :=
  match client.GetEndpointURL path with
  | none => .error (.endpointURL path)
  | some url =>
    match body with
    | none => .ok { method := method, url := url, headers := [], body := none }
    | some b =>
      match marshalRequestBody enc b with
      | none => .error (.marshalBody path)
      | some data =>
        .ok { method := method, url := url,
              headers := headerSet [] "Content-Type" "application/json",
              body := some data }

/-- InvokeEndpoint: build the request and hand it to ProcessRequest; a
URL or marshalling error is returned with a nil value. -/
def InvokeEndpoint {T B : Type} (dec : String → Option T) (enc : B → Option String)
    (decErr : String → Option ErrorResponse) (Do : Request → TransportResult)
    (client : Client) (method path : String) (body : Option B) : GoResult T :=
  match buildEndpointRequest enc client method path body with
  | .error e => .ret none (some e)
  | .ok request => ProcessRequest dec decErr Do client request

/-- InvokeVoidEndpoint: InvokeEndpoint at `struct\x7b\x7d`, discarding
the value and keeping only the error. -/
def InvokeVoidEndpoint {B : Type} (decUnit : String → Option Unit)
    (enc : B → Option String) (decErr : String → Option ErrorResponse)
    (Do : Request → TransportResult) (client : Client) (method path : String)
    (body : Option B) : GoResult Unit :=
  match InvokeEndpoint decUnit enc decErr Do client method path body with
  | .panicked => .panicked
  | .ret _ e => .ret none e

/-! ## A concrete JSON decoder instance. The pipeline is generic in the
decoder (Go generics plus `encoding/json`); the claims about concrete
decodes are settled with this executable decoder for a DTO with a single
integer field tagged "id", the shape the spec's example uses. -/

/-- IdObj is a DTO with one integer field tagged "id" (the shape of the
spec's decode example, as in the `Server.ID` field). -/
structure IdObj where
  id : Int
deriving DecidableEq, Repr

/-- JSON whitespace of RFC 8259, as `encoding/json` skips it. -/
def isJsonWs (c : Char) : Bool :=
  c == ' ' || c == '\t' || c == '\n' || c == '\r'

/-- Decimal digits to a natural number. -/
def digitsToNat (ds : List Char) : Nat :=
  ds.foldl (fun n c => 10 * n + (c.toNat - '0'.toNat)) 0

/-- Parse an optionally signed decimal integer at the head of the input,
returning it with the rest of the input. -/
def parseIntAt : List Char → Option (Int × List Char)
  | '-' :: rest =>
    let ds := rest.takeWhile Char.isDigit
    if ds = [] then none
    else some (-(digitsToNat ds : Int), rest.dropWhile Char.isDigit)
  | cs =>
    let ds := cs.takeWhile Char.isDigit
    if ds = [] then none
    else some ((digitsToNat ds : Int), cs.dropWhile Char.isDigit)

/-- Expect a literal run of characters. -/
def expectChars : List Char → List Char → Option (List Char)
  | [], cs => some cs
  | e :: es, c :: cs => if c = e then expectChars es cs else none
  | _ :: _, [] => none

/-- Modelled `json.Unmarshal` into `IdObj`: accepts an object with the
single member "id" bound to an integer, with JSON whitespace anywhere
between tokens, and rejects everything else. -/
def decIdObj (body : String) : Option IdObj := do
  let cs := (body.data).dropWhile isJsonWs
  let cs ← expectChars ['\x7b'] cs
  let cs := cs.dropWhile isJsonWs
  let cs ← expectChars ['"', 'i', 'd', '"'] cs
  let cs := cs.dropWhile isJsonWs
  let cs ← expectChars [':'] cs
  let cs := cs.dropWhile isJsonWs
  let (n, cs) ← parseIntAt cs
  let cs := cs.dropWhile isJsonWs
  let cs ← expectChars ['\x7d'] cs
  let cs := cs.dropWhile isJsonWs
  if cs = [] then some { id := n } else none

/-! ## Shared lemmas about header maps -/

theorem headerGet_headerSet_self (hs : List (String × String)) (k v : String) :
    headerGet (headerSet hs k v) k = v := by
  induction hs with
  | nil => simp [headerSet, headerGet]
  | cons p rest ih =>
    by_cases h : p.1 = k
    · obtain ⟨k', v'⟩ := p
      simp only [headerSet]
      rw [if_pos h]
      simp [headerGet]
    · obtain ⟨k', v'⟩ := p
      simp only [headerSet]
      rw [if_neg h]
      simp only [headerGet]
      rw [if_neg h]
      exact ih

theorem headerGet_headerSet_other (hs : List (String × String)) (k v k' : String)
    (h : k' ≠ k) : headerGet (headerSet hs k v) k' = headerGet hs k' := by
  induction hs with
  | nil =>
    simp only [headerSet, headerGet]
    rw [if_neg fun hk => h hk.symm]
  | cons p rest ih =>
    obtain ⟨k0, v0⟩ := p
    by_cases h0 : k0 = k
    · simp only [headerSet]
      rw [if_pos h0]
      simp only [headerGet]
      rw [if_neg fun hk => h hk.symm, if_neg (h0 ▸ fun hk => h hk.symm)]
    · simp only [headerSet]
      rw [if_neg h0]
      simp only [headerGet]
      by_cases h1 : k0 = k'
      · rw [if_pos h1, if_pos h1]
      · rw [if_neg h1, if_neg h1]
        exact ih

/-! ## Fixed inputs used by concrete instantiations -/

/-- A client with explicitly configured `EmptyCredentials` and the
default base URL (the `NewClientWithCredentials(&EmptyCredentials\x7b\x7d)`
configuration). -/
def clientEmptyDefault : Client :=
  { Credentials := some .empty, BaseURL := "" }

/-- A client whose `Credentials` interface field is nil (the `NewClient()`
configuration, the field never set). -/
def clientNilDefault : Client :=
  { Credentials := none, BaseURL := "" }

/-- A 404 response with no Content-Type header and an empty body. -/
def resp404NoCT : Response :=
  { StatusCode := 404, Status := "404 Not Found", Headers := [], Body := "" }

/-- A 200 response declaring JSON and carrying the body of the spec's
decode example. -/
def resp200Id1 : Response :=
  { StatusCode := 200, Status := "200 OK",
    Headers := [("Content-Type", "application/json")],
    Body := "\x7b\"id\":1\x7d" }

/-! ## C1 -/

/-- C1: the claim says a client with nil `Credentials` behaves exactly
like one configured with `EmptyCredentials`. The code instead calls
`client.Credentials.AuthorizeRequest(request)` on the raw interface
field (not through `Client.GetCredentials`, which supplies the empty
default): with a nil field this is a nil-interface method call, a panic,
while the `EmptyCredentials` client proceeds normally with the request
unchanged. -/
theorem processRequest_nil_credentials_diverges {T : Type}
    (dec : String → Option T) (decErr : String → Option ErrorResponse)
    (Do : Request → TransportResult) (req : Request) (u msg : String) :
    ProcessRequest dec decErr Do { Credentials := none, BaseURL := u } req = .panicked ∧
    ProcessRequest dec decErr (fun _ => .failure msg)
      { Credentials := some .empty, BaseURL := u } req
      = .ret none (some (.transport msg)) ∧
    Client.GetCredentials { Credentials := none, BaseURL := u } = .empty ∧
    authorizeRequest .empty req = req :=
  ⟨rfl, rfl, rfl, rfl⟩

/-! ## C4 -/

/-- C4: every response with status at least 500 yields the generic
server-fault error carrying the raw status line and no value, for every
decoder (so no JSON decoding is attempted), whatever the content type or
body. -/
theorem handleResponse_server_fault {T : Type} (dec : String → Option T)
    (decErr : String → Option ErrorResponse) (r : Response)
    (h : 500 ≤ r.StatusCode) :
    handleResponse dec decErr r = (none, some (.serverFault r.Status)) := by
  unfold handleResponse
  rw [if_neg (by omega : ¬(400 ≤ r.StatusCode ∧ r.StatusCode < 500)), if_pos h]

/-- C4 witness: a concrete 500 response declaring JSON with a non-JSON
body still yields the server fault. -/
theorem handleResponse_server_fault_witness :
    handleResponse (fun s => some s) (fun _ => none)
      { StatusCode := 500, Status := "500 Internal Server Error",
        Headers := [("Content-Type", "application/json")], Body := "<html>" }
      = (none, some (.serverFault "500 Internal Server Error")) :=
  handleResponse_server_fault _ _ _ (by decide)

/-! ## C8 -/

/-- C8: authorizing a request with a persistent token with identifier I
and secret S sets exactly the header "Authorization" to "Persistent I"
and "X-Access-Token" to S; every other header, the method, the URL and
the body are unchanged. -/
theorem authorizeRequest_persistent_token_frame (req : Request) (i s : String) :
    (authorizeRequest (.persistentToken i s) req).method = req.method ∧
    (authorizeRequest (.persistentToken i s) req).url = req.url ∧
    (authorizeRequest (.persistentToken i s) req).body = req.body ∧
    headerGet (authorizeRequest (.persistentToken i s) req).headers "Authorization"
      = "Persistent " ++ i ∧
    headerGet (authorizeRequest (.persistentToken i s) req).headers "X-Access-Token" = s ∧
    ∀ k, k ≠ "Authorization" → k ≠ "X-Access-Token" →
      headerGet (authorizeRequest (.persistentToken i s) req).headers k
        = headerGet req.headers k := by
  refine ⟨rfl, rfl, rfl, ?_, ?_, ?_⟩
  · show headerGet (headerSet (headerSet req.headers "Authorization" ("Persistent " ++ i))
      "X-Access-Token" s) "Authorization" = "Persistent " ++ i
    rw [headerGet_headerSet_other _ _ _ _ (by decide), headerGet_headerSet_self]
  · exact headerGet_headerSet_self _ _ _
  · intro k hk1 hk2
    show headerGet (headerSet (headerSet req.headers "Authorization" ("Persistent " ++ i))
      "X-Access-Token" s) k = headerGet req.headers k
    rw [headerGet_headerSet_other _ _ _ _ hk2, headerGet_headerSet_other _ _ _ _ hk1]

/-! ## C9 -/

/-- C9: whenever InvokeEndpoint returns a pair (rather than panicking),
it never pairs a non-nil value with a non-nil error: the value is nil on
every error path, and a returned value comes with a nil error. -/
theorem invokeEndpoint_no_partial_result {T B : Type} (dec : String → Option T)
    (enc : B → Option String) (decErr : String → Option ErrorResponse)
    (Do : Request → TransportResult) (client : Client) (method path : String)
    (body : Option B) (v : Option T) (e : Option GoErr)
    (h : InvokeEndpoint dec enc decErr Do client method path body = .ret v e) :
    v = none ∨ e = none := by
  unfold InvokeEndpoint at h
  split at h
  · cases h
    exact Or.inl rfl
  · unfold ProcessRequest at h
    split at h
    · cases h
    · split at h
      · cases h
        exact Or.inl rfl
      · split at h
        · cases h
          exact Or.inl rfl
        · cases h
          exact Or.inr rfl

/-- C9 witness: at a concrete transport failure the theorem applies, and
the returned pair indeed has a nil value. -/
theorem invokeEndpoint_no_partial_result_witness :
    (none : Option IdObj) = none ∨ (some (GoErr.transport "connection refused") : Option GoErr) = none :=
  invokeEndpoint_no_partial_result decIdObj (fun _ : Unit => none) (fun _ => none)
    (fun _ => .failure "connection refused") clientEmptyDefault "GET" "/servers" none
    none (some (.transport "connection refused")) rfl

/-! ## C10 -/

/-- C10: the response content-type gate compares the raw header value:
a success-band response declaring "application/json; charset=utf-8" is
not decoded (the result does not depend on the decoder) and yields the
unsupported-content-type error. -/
theorem parseResponse_exact_content_type_match {T : Type} (dec : String → Option T)
    (decErr : String → Option ErrorResponse) (r : Response)
    (hlt : r.StatusCode < 400)
    (hct : getContentType r = "application/json; charset=utf-8") :
    handleResponse dec decErr r
      = (none, some (.unsupportedContentType "application/json; charset=utf-8")) := by
  unfold handleResponse
  rw [if_neg (by omega : ¬(400 ≤ r.StatusCode ∧ r.StatusCode < 500)),
    if_neg (by omega : ¬ 500 ≤ r.StatusCode)]
  unfold parseResponse
  rw [hct]
  rfl

/-- C10 witness: a concrete 200 response with a parameterised JSON media
type and a decodable body is still rejected. -/
theorem parseResponse_exact_content_type_match_witness :
    handleResponse decIdObj (fun _ => none)
      { StatusCode := 200, Status := "200 OK",
        Headers := [("Content-Type", "application/json; charset=utf-8")],
        Body := "\x7b\"id\":1\x7d" }
      = (none, some (.unsupportedContentType "application/json; charset=utf-8")) :=
  parseResponse_exact_content_type_match _ _ _ (by decide) (by decide)

/-! ## Shared reduction lemmas for the pipeline -/

theorem parseResponse_json_some {T : Type} (dec : String → Option T) (r : Response)
    (v : T) (hct : getContentType r = "application/json") (hdec : dec r.Body = some v) :
    parseResponse dec r = (some v, none) := by
  unfold parseResponse
  rw [hct, hdec]
  rfl

theorem parseResponse_json_none {T : Type} (dec : String → Option T) (r : Response)
    (hct : getContentType r = "application/json") (hdec : dec r.Body = none) :
    parseResponse dec r = (none, some (.parseBody r.Body)) := by
  unfold parseResponse
  rw [hct, hdec]
  rfl

theorem parseResponse_empty_ct {T : Type} (dec : String → Option T) (r : Response)
    (hct : getContentType r = "") : parseResponse dec r = (none, none) := by
  unfold parseResponse
  rw [hct]
  rfl

theorem parseResponse_other_ct {T : Type} (dec : String → Option T) (r : Response)
    (h1 : getContentType r ≠ "application/json") (h2 : getContentType r ≠ "") :
    parseResponse dec r = (none, some (.unsupportedContentType (getContentType r))) := by
  unfold parseResponse
  split
  · exact absurd (by assumption) h1
  · exact absurd (by assumption) h2
  · rfl

theorem handleResponse_below400 {T : Type} (dec : String → Option T)
    (decErr : String → Option ErrorResponse) (r : Response) (hlt : r.StatusCode < 400) :
    handleResponse dec decErr r = parseResponse dec r := by
  unfold handleResponse
  rw [if_neg (by omega : ¬(400 ≤ r.StatusCode ∧ r.StatusCode < 500)),
    if_neg (by omega : ¬ 500 ≤ r.StatusCode)]

theorem handleResponse_4xx_parse_err {T : Type} (dec : String → Option T)
    (decErr : String → Option ErrorResponse) (r : Response) (a : Option ErrorResponse)
    (er : GoErr) (h4 : 400 ≤ r.StatusCode) (h5 : r.StatusCode < 500)
    (hp : parseResponse decErr r = (a, some er)) :
    handleResponse dec decErr r = (none, some (.statusFallback r.Status)) := by
  unfold handleResponse
  rw [if_pos ⟨h4, h5⟩]
  unfold handleErrorResponse
  rw [hp]

theorem handleResponse_4xx_parse_ok {T : Type} (dec : String → Option T)
    (decErr : String → Option ErrorResponse) (r : Response) (eo : Option ErrorResponse)
    (h4 : 400 ≤ r.StatusCode) (h5 : r.StatusCode < 500)
    (hp : parseResponse decErr r = (eo, none)) :
    handleResponse dec decErr r = (none, some (.requestErrorPtr eo)) := by
  unfold handleResponse
  rw [if_pos ⟨h4, h5⟩]
  unfold handleErrorResponse
  rw [hp]

theorem processRequest_empty_success {T : Type} (dec : String → Option T)
    (decErr : String → Option ErrorResponse) (r : Response) (req : Request) :
    ProcessRequest dec decErr (fun _ => .success r) clientEmptyDefault req
      = match handleResponse dec decErr r with
        | (_, some e) => .ret none (some (.handling e))
        | (data, none) => .ret data none :=
  rfl

theorem invokeEndpoint_ok_request {T B : Type} (dec : String → Option T)
    (enc : B → Option String) (decErr : String → Option ErrorResponse)
    (Do : Request → TransportResult) (client : Client) (method path : String)
    (body : Option B) (req : Request)
    (hb : buildEndpointRequest enc client method path body = .ok req) :
    InvokeEndpoint dec enc decErr Do client method path body
      = ProcessRequest dec decErr Do client req := by
  unfold InvokeEndpoint
  rw [hb]

/-! ## C5 -/

/-- C5: below 400 the body decode is gated on the declared Content-Type -
"application/json" is decoded into the expected type, an empty content
type gives the "no value, no error" result (and InvokeVoidEndpoint then
reports plain success), and any other declared content type is the
unsupported-content-type error. -/
theorem handleResponse_content_type_gate {T : Type} (dec : String → Option T)
    (decUnit : String → Option Unit) (encB : Unit → Option String)
    (decErr : String → Option ErrorResponse) (r : Response) (v : T)
    (hlt : r.StatusCode < 400) :
    (getContentType r = "application/json" → dec r.Body = some v →
      handleResponse dec decErr r = (some v, none)) ∧
    (getContentType r = "" → handleResponse dec decErr r = (none, none)) ∧
    (getContentType r ≠ "application/json" → getContentType r ≠ "" →
      handleResponse dec decErr r
        = (none, some (.unsupportedContentType (getContentType r)))) ∧
    (getContentType r = "" →
      InvokeVoidEndpoint decUnit encB decErr (fun _ => .success r) clientEmptyDefault
        "POST" "/servers/1/blocking" none = .ret none none) := by
  refine ⟨?_, ?_, ?_, ?_⟩
  · intro hct hdec
    rw [handleResponse_below400 dec decErr r hlt, parseResponse_json_some dec r v hct hdec]
  · intro hct
    rw [handleResponse_below400 dec decErr r hlt, parseResponse_empty_ct dec r hct]
  · intro hct1 hct2
    rw [handleResponse_below400 dec decErr r hlt, parseResponse_other_ct dec r hct1 hct2]
  · intro hct
    have hhr : handleResponse decUnit decErr r = (none, none) := by
      rw [handleResponse_below400 decUnit decErr r hlt, parseResponse_empty_ct decUnit r hct]
    unfold InvokeVoidEndpoint
    rw [invokeEndpoint_ok_request decUnit encB decErr _ clientEmptyDefault
      "POST" "/servers/1/blocking" none
      { method := "POST", url := "https://api.superhub.host/v1/servers/1/blocking",
        headers := [], body := none } rfl]
    rw [processRequest_empty_success decUnit decErr r _]
    rw [hhr]

/-- C5 witness: a concrete 204 response with neither a content type nor
a body gives the no-value success, and the void pipeline reports plain
success on it. -/
theorem handleResponse_content_type_gate_witness :
    (handleResponse (fun s => some s) (fun _ => none)
      { StatusCode := 204, Status := "204 No Content", Headers := [], Body := "" }
      = (none, none)) ∧
    (InvokeVoidEndpoint (fun _ => some ()) (fun _ : Unit => some "null") (fun _ => none)
      (fun _ => .success
        { StatusCode := 204, Status := "204 No Content", Headers := [], Body := "" })
      clientEmptyDefault "POST" "/servers/1/blocking" (none : Option Unit)
      = .ret none none) :=
  have h := handleResponse_content_type_gate (fun s => some s) (fun _ => some ())
    (fun _ : Unit => some "null") (fun _ => none)
    { StatusCode := 204, Status := "204 No Content", Headers := [], Body := "" }
    "" (by decide)
  ⟨h.2.1 rfl, h.2.2.2 rfl⟩

/-! ## C6 -/

/-- C6: a 200 response declaring "application/json" whose body decodes
(here with the executable decoder for the one-integer-field DTO) yields
the decoded value and a nil error, both at handleResponse and through
the full InvokeEndpoint pipeline. -/
theorem invokeEndpoint_decodes_json_value (decErr : String → Option ErrorResponse)
    (enc : Unit → Option String) (r : Response) (v : IdObj)
    (h200 : r.StatusCode = 200)
    (hct : getContentType r = "application/json")
    (hdec : decIdObj r.Body = some v) :
    handleResponse decIdObj decErr r = (some v, none) ∧
    InvokeEndpoint decIdObj enc decErr (fun _ => .success r) clientEmptyDefault
      "GET" "/servers/1" none = .ret (some v) none := by
  have hhr : handleResponse decIdObj decErr r = (some v, none) := by
    rw [handleResponse_below400 decIdObj decErr r (by omega),
      parseResponse_json_some decIdObj r v hct hdec]
  refine ⟨hhr, ?_⟩
  rw [invokeEndpoint_ok_request decIdObj enc decErr _ clientEmptyDefault
    "GET" "/servers/1" none
    { method := "GET", url := "https://api.superhub.host/v1/servers/1",
      headers := [], body := none } rfl]
  rw [processRequest_empty_success decIdObj decErr r _]
  rw [hhr]

/-- C6 witness: the spec's example body decodes to the value with id 1
and no error, end to end. -/
theorem invokeEndpoint_decodes_json_value_witness :
    handleResponse decIdObj (fun _ => none) resp200Id1 = (some { id := 1 }, none) ∧
    InvokeEndpoint decIdObj (fun _ : Unit => none) (fun _ => none)
      (fun _ => .success resp200Id1) clientEmptyDefault "GET" "/servers/1"
      (none : Option Unit) = .ret (some { id := 1 }) none :=
  invokeEndpoint_decodes_json_value (fun _ => none) (fun _ => none) resp200Id1
    { id := 1 } (by decide) (by decide) (by decide)

/-! ## C7 -/

/-- C7: a supplied body value is serialized by the JSON encoder (with
the encoder's trailing newline) into the request body and the outbound
request carries exactly the header Content-Type: application/json; a nil
body gives a request with no headers and no body stream. -/
theorem invokeEndpoint_body_serialization {T B : Type} (dec : String → Option T)
    (enc : B → Option String) (decErr : String → Option ErrorResponse)
    (Do : Request → TransportResult) (client : Client) (method path : String)
    (b : B) (s url : String)
    (henc : enc b = some s) (hurl : client.GetEndpointURL path = some url) :
    buildEndpointRequest enc client method path (some b)
      = .ok { method := method, url := url,
              headers := [("Content-Type", "application/json")],
              body := some (s ++ "\n") } ∧
    buildEndpointRequest enc client method path (none : Option B)
      = .ok { method := method, url := url, headers := [], body := none } ∧
    InvokeEndpoint dec enc decErr Do client method path (some b)
      = ProcessRequest dec decErr Do client
          { method := method, url := url,
            headers := [("Content-Type", "application/json")],
            body := some (s ++ "\n") } := by
  have h1 : buildEndpointRequest enc client method path (some b)
      = .ok { method := method, url := url,
              headers := [("Content-Type", "application/json")],
              body := some (s ++ "\n") } := by
    have hm : marshalRequestBody enc b = some (s ++ "\n") := by
      unfold marshalRequestBody
      rw [henc]
    simp only [buildEndpointRequest, hurl, hm]
    rfl
  have h2 : buildEndpointRequest enc client method path (none : Option B)
      = .ok { method := method, url := url, headers := [], body := none } := by
    unfold buildEndpointRequest
    rw [hurl]
  exact ⟨h1, h2, invokeEndpoint_ok_request dec enc decErr Do client method path
    (some b) _ h1⟩

/-- C7 witness: with a concrete encoder and the default base URL, the
outbound request of a PUT with a body carries the JSON content type and
the serialized body, and the body-less variant carries neither. -/
theorem invokeEndpoint_body_serialization_witness :
    buildEndpointRequest (fun _ : Unit => some "42") clientEmptyDefault "PUT"
      "/nodes/1/load" (some ())
      = .ok { method := "PUT", url := "https://api.superhub.host/v1/nodes/1/load",
              headers := [("Content-Type", "application/json")],
              body := some ("42" ++ "\n") } ∧
    buildEndpointRequest (fun _ : Unit => some "42") clientEmptyDefault "PUT"
      "/nodes/1/load" (none : Option Unit)
      = .ok { method := "PUT", url := "https://api.superhub.host/v1/nodes/1/load",
              headers := [], body := none } ∧
    InvokeEndpoint decIdObj (fun _ : Unit => some "42") (fun _ => none)
      (fun _ => .failure "down") clientEmptyDefault "PUT" "/nodes/1/load" (some ())
      = ProcessRequest decIdObj (fun _ => none) (fun _ => .failure "down")
          clientEmptyDefault
          { method := "PUT", url := "https://api.superhub.host/v1/nodes/1/load",
            headers := [("Content-Type", "application/json")],
            body := some ("42" ++ "\n") } :=
  invokeEndpoint_body_serialization decIdObj (fun _ : Unit => some "42") (fun _ => none)
    (fun _ => .failure "down") clientEmptyDefault "PUT" "/nodes/1/load" () "42"
    "https://api.superhub.host/v1/nodes/1/load" rfl (by decide)

/-! ## C3 -/

/-- C3 counterexample: at a 404 response with no Content-Type header and
an empty (hence unparsable) body, the returned error is the typed nil
`*ErrorResponse` pointer inside a non-nil error interface (formatted by
fmt as "<nil>"), not the fallback generic error referencing the raw
status line the claim demands. -/
theorem handleResponse_4xx_empty_ct_counterexample :
    handleResponse (fun s => some s) (fun _ => none) resp404NoCT
      = (none, some (.requestErrorPtr none)) ∧
    some (GoErr.requestErrorPtr none)
      ≠ some (GoErr.statusFallback resp404NoCT.Status) :=
  ⟨handleResponse_4xx_parse_ok (fun s => some s) (fun _ => none) resp404NoCT none
    (by decide) (by decide) (parseResponse_empty_ct (fun _ => none) resp404NoCT rfl),
   by decide⟩

/-- C3 (amended): for a 400-499 response that declares a non-empty
content type, the pipeline behaves as the claim states - the JSON error
body decodes into the typed error with exactly the body's fields, and an
undecodable body (or a foreign content type) yields the fallback generic
error carrying the raw status line - and the attempt never crashes. A
4xx with an empty/absent Content-Type, however, skips the error decode
entirely: handleResponse returns a typed nil `*ErrorResponse` inside a
non-nil error interface instead of the fallback, which ProcessRequest
wraps (fmt formats the nil pointer as "<nil>", so there is still no
crash, but the error references nothing). -/
theorem handleResponse_4xx_error_decode {T : Type} (dec : String → Option T)
    (decErr : String → Option ErrorResponse) (r : Response) (req : Request)
    (e : ErrorResponse) (h4 : 400 ≤ r.StatusCode) (h5 : r.StatusCode < 500) :
    (getContentType r = "application/json" → decErr r.Body = some e →
      handleResponse dec decErr r = (none, some (.requestErrorPtr (some e)))) ∧
    (getContentType r = "application/json" → decErr r.Body = none →
      handleResponse dec decErr r = (none, some (.statusFallback r.Status))) ∧
    (getContentType r ≠ "application/json" → getContentType r ≠ "" →
      handleResponse dec decErr r = (none, some (.statusFallback r.Status))) ∧
    (getContentType r = "" →
      handleResponse dec decErr r = (none, some (.requestErrorPtr none)) ∧
      ProcessRequest dec decErr (fun _ => .success r) clientEmptyDefault req
        = .ret none (some (.handling (.requestErrorPtr none)))) := by
  refine ⟨?_, ?_, ?_, ?_⟩
  · intro hct hdec
    exact handleResponse_4xx_parse_ok dec decErr r _ h4 h5
      (parseResponse_json_some decErr r e hct hdec)
  · intro hct hdec
    exact handleResponse_4xx_parse_err dec decErr r _ _ h4 h5
      (parseResponse_json_none decErr r hct hdec)
  · intro hct1 hct2
    exact handleResponse_4xx_parse_err dec decErr r _ _ h4 h5
      (parseResponse_other_ct decErr r hct1 hct2)
  · intro hct
    have hhr : handleResponse dec decErr r = (none, some (.requestErrorPtr none)) :=
      handleResponse_4xx_parse_ok dec decErr r _ h4 h5 (parseResponse_empty_ct decErr r hct)
    refine ⟨hhr, ?_⟩
    rw [processRequest_empty_success dec decErr r req, hhr]

/-- C3 witness: at the concrete 404 with no Content-Type and empty body,
handleResponse returns the typed nil error pointer and the pipeline
returns it wrapped - not the status-line fallback the original claim
demanded. -/
theorem handleResponse_4xx_error_decode_witness :
    handleResponse (fun s => some s) (fun _ => none) resp404NoCT
      = (none, some (.requestErrorPtr none)) ∧
    ProcessRequest (fun s => some s) (fun _ => none) (fun _ => .success resp404NoCT)
      clientEmptyDefault { method := "GET", url := "u", headers := [], body := none }
      = .ret none (some (.handling (.requestErrorPtr none))) :=
  (handleResponse_4xx_error_decode (fun s => some s) (fun _ => none) resp404NoCT
    { method := "GET", url := "u", headers := [], body := none }
    { ErrorName := "", Message := "", Path := "", Status := 0, Timestamp := "" }
    (by decide) (by decide)).2.2.2 rfl

/-! ## Character classes for the URL domain of C2, and list toolkit for
`path.Clean` -/

/-- Lowercase ASCII letter: the scheme alphabet of the modelled URLs
(Go lowercases schemes, so this is the stable fragment). -/
def isSchemeChar (c : Char) : Bool := 'a' ≤ c && c ≤ 'z'

/-- Host (and port) characters: letters, digits, dot, colon, hyphen -
unreserved for Go's host escaping. -/
def isHostChar (c : Char) : Bool :=
  c.isAlphanum || c == '.' || c == ':' || c == '-'

/-- Path-segment characters: letters, digits, hyphen, underscore -
unreserved for Go's path escaping, and excluding the slash and the dot
so a segment is never "", "." or "..". -/
def isSegChar (c : Char) : Bool := c.isAlphanum || c == '-' || c == '_'

/-- SimpleSeg: a non-empty path segment over the segment alphabet. -/
def SimpleSeg (s : String) : Prop :=
  s.data ≠ [] ∧ ∀ c ∈ s.data, isSegChar c = true

instance (s : String) : Decidable (SimpleSeg s) := by
  unfold SimpleSeg
  infer_instance

/-- Drop the empty segments of a segment list. -/
def dropEmpties : List (List Char) → List (List Char)
  | [] => []
  | s :: rest => if s = [] then dropEmpties rest else s :: dropEmpties rest

theorem string_data_ext {s t : String} (h : s.data = t.data) : s = t := by
  cases s
  cases t
  exact congrArg String.mk h

theorem splitSegs_ne_nil (cs : List Char) : splitSegs cs ≠ [] := by
  cases cs with
  | nil => simp [splitSegs]
  | cons c rest =>
    unfold splitSegs
    by_cases h : c = '/'
    · simp [h]
    · rw [if_neg h]
      cases hr : splitSegs rest with
      | nil => simp
      | cons s ss => simp

theorem splitSegs_cons_slash (cs : List Char) :
    splitSegs ('/' :: cs) = [] :: splitSegs cs := by
  conv_lhs => unfold splitSegs
  rw [if_pos rfl]

theorem splitSegs_cons_other (c : Char) (cs : List Char) (h : c ≠ '/') :
    splitSegs (c :: cs)
      = match splitSegs cs with
        | [] => [[c]]
        | s :: ss => (c :: s) :: ss := by
  conv_lhs => unfold splitSegs
  rw [if_neg h]

theorem splitSegs_append (a b : List Char) :
    splitSegs (a ++ '/' :: b) = splitSegs a ++ splitSegs b := by
  induction a with
  | nil =>
    rw [List.nil_append, splitSegs_cons_slash]
    simp [splitSegs]
  | cons c a ih =>
    rw [List.cons_append]
    by_cases h : c = '/'
    · subst h
      rw [splitSegs_cons_slash, splitSegs_cons_slash, ih, List.cons_append]
    · rw [splitSegs_cons_other c _ h, splitSegs_cons_other c _ h, ih]
      obtain ⟨s, ss, hs⟩ := List.exists_cons_of_ne_nil (splitSegs_ne_nil a)
      rw [hs, List.cons_append]
      rfl

theorem splitSegs_no_slash (cs : List Char) (h : '/' ∉ cs) : splitSegs cs = [cs] := by
  induction cs with
  | nil => simp [splitSegs]
  | cons c rest ih =>
    have hc : c ≠ '/' := fun hc => h (hc ▸ List.mem_cons_self c rest)
    rw [splitSegs_cons_other c rest hc, ih (fun hm => h (List.mem_cons_of_mem c hm))]

theorem dropEmpties_append (a b : List (List Char)) :
    dropEmpties (a ++ b) = dropEmpties a ++ dropEmpties b := by
  induction a with
  | nil => simp [dropEmpties]
  | cons s rest ih =>
    by_cases h : s = []
    · simp [dropEmpties, h, ih]
    · simp [dropEmpties, h, ih]

theorem splitSegs_chars (x : List Char)
    (hx : ∀ c ∈ x, c = '/' ∨ isSegChar c = true) :
    ∀ s ∈ splitSegs x, ∀ c ∈ s, isSegChar c = true := by
  induction x with
  | nil =>
    intro s hs c hc
    simp [splitSegs] at hs
    subst hs
    simp at hc
  | cons c0 rest ih =>
    intro s hs c hc
    have hrest : ∀ c ∈ rest, c = '/' ∨ isSegChar c = true :=
      fun c hm => hx c (List.mem_cons_of_mem c0 hm)
    by_cases h : c0 = '/'
    · subst h
      rw [splitSegs_cons_slash] at hs
      rcases List.mem_cons.mp hs with h1 | h2
      · subst h1
        simp at hc
      · exact ih hrest s h2 c hc
    · have hc0 : isSegChar c0 = true := by
        rcases hx c0 (List.mem_cons_self c0 rest) with h1 | h1
        · exact absurd h1 h
        · exact h1
      obtain ⟨s0, ss, hsplit⟩ := List.exists_cons_of_ne_nil (splitSegs_ne_nil rest)
      rw [splitSegs_cons_other c0 rest h, hsplit] at hs
      rcases List.mem_cons.mp hs with h1 | h2
      · subst h1
        rcases List.mem_cons.mp hc with h2 | h3
        · subst h2
          exact hc0
        · exact ih hrest s0 (hsplit ▸ List.mem_cons_self s0 ss) c h3
      · exact ih hrest s (hsplit ▸ List.mem_cons_of_mem s0 h2) c hc

/-! ## Segment processing lemmas -/

theorem cleanSegs_good (rooted : Bool) (l : List (List Char)) :
    (∀ s ∈ l, ∀ c ∈ s, isSegChar c = true) →
    ∀ acc, cleanSegs rooted acc l = acc.reverse ++ dropEmpties l := by
  induction l with
  | nil =>
    intro _ acc
    simp [cleanSegs, dropEmpties]
  | cons s rest ih =>
    intro h acc
    have hs : ∀ c ∈ s, isSegChar c = true := h s (List.mem_cons_self s rest)
    have hrest : ∀ t ∈ rest, ∀ c ∈ t, isSegChar c = true :=
      fun t ht => h t (List.mem_cons_of_mem s ht)
    by_cases he : s = []
    · subst he
      show cleanSegs rooted acc ([] :: rest) = acc.reverse ++ dropEmpties ([] :: rest)
      unfold cleanSegs
      rw [if_pos (Or.inl rfl)]
      rw [ih hrest acc]
      simp [dropEmpties]
    · have h1 : s ≠ ['.'] := by
        intro hdot
        subst hdot
        exact absurd (hs '.' (List.mem_cons_self _ _)) (by decide)
      have h2 : s ≠ ['.', '.'] := by
        intro hdot
        subst hdot
        exact absurd (hs '.' (List.mem_cons_self _ _)) (by decide)
      unfold cleanSegs
      rw [if_neg (by simp [he, h1]), if_neg h2, ih hrest (s :: acc)]
      simp [dropEmpties, he]

theorem interList_chars (L : List (List Char)) :
    (∀ s ∈ L, ∀ c ∈ s, isSegChar c = true) →
    ∀ c ∈ interList L, c = '/' ∨ isSegChar c = true := by
  induction L with
  | nil =>
    intro _ c hc
    simp [interList] at hc
  | cons s rest ih =>
    intro hL c hc
    have hs : ∀ c ∈ s, isSegChar c = true := hL s (List.mem_cons_self s rest)
    have hrest : ∀ t ∈ rest, ∀ c ∈ t, isSegChar c = true :=
      fun t ht => hL t (List.mem_cons_of_mem s ht)
    cases rest with
    | nil =>
      rw [show interList [s] = s from rfl] at hc
      exact Or.inr (hs c hc)
    | cons s2 r2 =>
      rw [show interList (s :: s2 :: r2) = s ++ '/' :: interList (s2 :: r2) from rfl] at hc
      rcases List.mem_append.mp hc with h1 | h2
      · exact Or.inr (hs c h1)
      · rcases List.mem_cons.mp h2 with h3 | h4
        · exact Or.inl h3
        · exact ih hrest c h4

theorem seg_no_slash (s : List Char) (hs : ∀ c ∈ s, isSegChar c = true) : '/' ∉ s :=
  fun hmem => absurd (hs '/' hmem) (by decide)

theorem dropEmpties_splitSegs_inter (L : List (List Char)) :
    (∀ s ∈ L, s ≠ [] ∧ ∀ c ∈ s, isSegChar c = true) →
    dropEmpties (splitSegs (interList L)) = L := by
  induction L with
  | nil =>
    intro _
    simp [interList, splitSegs, dropEmpties]
  | cons s rest ih =>
    intro hL
    have hs := hL s (List.mem_cons_self s rest)
    have hrest : ∀ t ∈ rest, t ≠ [] ∧ ∀ c ∈ t, isSegChar c = true :=
      fun t ht => hL t (List.mem_cons_of_mem s ht)
    cases rest with
    | nil =>
      rw [show interList [s] = s from rfl, splitSegs_no_slash s (seg_no_slash s hs.2)]
      simp [dropEmpties, hs.1]
    | cons s2 r2 =>
      rw [show interList (s :: s2 :: r2) = s ++ '/' :: interList (s2 :: r2) from rfl,
        splitSegs_append, dropEmpties_append,
        splitSegs_no_slash s (seg_no_slash s hs.2), ih hrest]
      simp [dropEmpties, hs.1]

/-- Evaluation of `pathCleanList` on a rooted path over the URL alphabet:
the result is the slash-joined list of the non-empty split segments. -/
theorem pathCleanList_eval (t : List Char)
    (h : ∀ c ∈ t, c = '/' ∨ isSegChar c = true) (D : List (List Char))
    (hD : dropEmpties (splitSegs ('/' :: t)) = D) :
    pathCleanList ('/' :: t) = if D = [] then ['/'] else '/' :: interList D := by
  have hchars : ∀ s ∈ splitSegs ('/' :: t), ∀ c ∈ s, isSegChar c = true :=
    splitSegs_chars ('/' :: t) (fun c hc => by
      rcases List.mem_cons.mp hc with h1 | h2
      · exact Or.inl h1
      · exact h c h2)
  have hclean : cleanSegs (('/' : Char) == '/') [] (splitSegs ('/' :: t)) = D := by
    rw [cleanSegs_good (('/' : Char) == '/') (splitSegs ('/' :: t)) hchars []]
    simpa using hD
  simp only [pathCleanList]
  rw [hclean]
  cases D with
  | nil => simp
  | cons s ss => simp

/-! ## String-level lemmas for URL parsing -/

theorem interSegs_data (L : List String) :
    (interSegs L).data = interList (L.map String.data) := by
  induction L with
  | nil => rfl
  | cons s rest ih =>
    cases rest with
    | nil => rfl
    | cons s2 r2 =>
      rw [show interSegs (s :: s2 :: r2) = s ++ "/" ++ interSegs (s2 :: r2) from rfl]
      rw [String.data_append, String.data_append, ih]
      rw [show List.map String.data (s :: s2 :: r2) = s.data :: List.map String.data (s2 :: r2)
        from rfl]
      rw [show interList (s.data :: List.map String.data (s2 :: r2))
          = s.data ++ '/' :: interList (List.map String.data (s2 :: r2)) from rfl]
      simp

theorem splitScheme_append (a r : List Char) (ha : ∀ c ∈ a, c ≠ ':' ∧ c ≠ '/') :
    splitScheme (a ++ ':' :: '/' :: '/' :: r) = some (a, r) := by
  induction a with
  | nil =>
    rw [List.nil_append]
    unfold splitScheme
    rw [if_pos rfl]
    rfl
  | cons c a ih =>
    have hc := ha c (List.mem_cons_self c a)
    have hrest : ∀ c ∈ a, c ≠ ':' ∧ c ≠ '/' := fun c hm => ha c (List.mem_cons_of_mem _ hm)
    rw [List.cons_append]
    conv_lhs => unfold splitScheme
    rw [if_neg hc.1, if_neg hc.2, ih hrest]
    rfl

theorem takeWhile_until_slash (a b : List Char) (ha : ∀ c ∈ a, c ≠ '/') :
    List.takeWhile (fun c => c != '/') (a ++ '/' :: b) = a := by
  induction a with
  | nil => simp [List.takeWhile]
  | cons c a ih =>
    have hc : (c != '/') = true := by
      simpa using ha c (List.mem_cons_self c a)
    rw [List.cons_append, List.takeWhile_cons, hc]
    simp only [ite_true]
    rw [ih (fun c hm => ha c (List.mem_cons_of_mem _ hm))]

theorem dropWhile_until_slash (a b : List Char) (ha : ∀ c ∈ a, c ≠ '/') :
    List.dropWhile (fun c => c != '/') (a ++ '/' :: b) = '/' :: b := by
  induction a with
  | nil => simp [List.dropWhile]
  | cons c a ih =>
    have hc : (c != '/') = true := by
      simpa using ha c (List.mem_cons_self c a)
    rw [List.cons_append, List.dropWhile_cons, hc]
    simp only [ite_true]
    exact ih (fun c hm => ha c (List.mem_cons_of_mem _ hm))

theorem scheme_char_not_special (c : Char) (h : isSchemeChar c = true) :
    c ≠ ':' ∧ c ≠ '/' := by
  constructor
  · intro hc
    subst hc
    exact absurd h (by decide)
  · intro hc
    subst hc
    exact absurd h (by decide)

theorem host_char_not_slash (c : Char) (h : isHostChar c = true) : c ≠ '/' := by
  intro hc
  subst hc
  exact absurd h (by decide)

/-- Reduction of the modelled `net/url.Parse` once the scheme split is
known. -/
theorem parseURL_eval (s : String) (sch rest : List Char)
    (hsplit : splitScheme s.data = some (sch, rest)) (hne : sch ≠ []) :
    parseURL s = some { scheme := String.mk sch,
                        host := String.mk (rest.takeWhile fun c => c != '/'),
                        path := String.mk (rest.dropWhile fun c => c != '/') } := by
  unfold parseURL
  rw [hsplit]
  show (if sch = [] then (none : Option GoURL)
    else some ({ scheme := String.mk sch,
                 host := String.mk (rest.takeWhile fun c => c != '/'),
                 path := String.mk (rest.dropWhile fun c => c != '/') } : GoURL)) = _
  rw [if_neg hne]

theorem mem_opt_slash (b : Bool) (c : Char)
    (hc : c ∈ (if b then ['/'] else ([] : List Char))) : c = '/' := by
  cases b
  · simp at hc
  · simpa using hc

/-! ## C2 -/

/-- C2: for every base URL scheme://host[:port]/base (components over the
unreserved alphabets, base path given by its segments) with or without a
trailing slash, and every relative endpoint path given by its segments
with or without a leading and/or trailing slash, GetEndpointURL returns
the one normalized absolute URL: scheme, host and port preserved, the
path segments of base and endpoint joined with single slashes and no
trailing slash. -/
theorem getEndpointURL_join_normalizes
    (scheme host : String) (bs es : List String) (bt el et : Bool)
    (hs0 : scheme.data ≠ []) (hsc : ∀ c ∈ scheme.data, isSchemeChar c = true)
    (hhost : ∀ c ∈ host.data, isHostChar c = true)
    (hbs : ∀ s ∈ bs, SimpleSeg s) (hes : ∀ s ∈ es, SimpleSeg s) :
    Client.GetEndpointURL
      { Credentials := none,
        BaseURL := scheme ++ "://" ++ host ++ "/" ++ interSegs bs
          ++ (if bt then "/" else "") }
      ((if el then "/" else "") ++ interSegs es ++ (if et then "/" else ""))
      = some (scheme ++ "://" ++ host ++ "/" ++ interSegs (bs ++ es)) := by
  have hColon : ∀ c ∈ scheme.data, c ≠ ':' ∧ c ≠ '/' :=
    fun c hc => scheme_char_not_special c (hsc c hc)
  have hHost : ∀ c ∈ host.data, c ≠ '/' :=
    fun c hc => host_char_not_slash c (hhost c hc)
  have hbsL : ∀ sL ∈ bs.map String.data, sL ≠ [] ∧ ∀ c ∈ sL, isSegChar c = true := by
    intro sL hm
    obtain ⟨s, hsmem, rfl⟩ := List.mem_map.mp hm
    exact ⟨(hbs s hsmem).1, (hbs s hsmem).2⟩
  have hesL : ∀ sL ∈ es.map String.data, sL ≠ [] ∧ ∀ c ∈ sL, isSegChar c = true := by
    intro sL hm
    obtain ⟨s, hsmem, rfl⟩ := List.mem_map.mp hm
    exact ⟨(hes s hsmem).1, (hes s hsmem).2⟩
  have hIbs : ∀ c ∈ (interSegs bs).data, c = '/' ∨ isSegChar c = true := by
    rw [interSegs_data]
    exact interList_chars _ (fun sL hm => (hbsL sL hm).2)
  have hIes : ∀ c ∈ (interSegs es).data, c = '/' ∨ isSegChar c = true := by
    rw [interSegs_data]
    exact interList_chars _ (fun sL hm => (hesL sL hm).2)
  have hBdata : (scheme ++ "://" ++ host ++ "/" ++ interSegs bs
        ++ (if bt then "/" else "")).data
      = scheme.data ++ ':' :: '/' :: '/' :: (host.data ++ '/' ::
          ((interSegs bs).data ++ (if bt then ['/'] else []))) := by
    cases bt <;>
      simp [String.data_append, show ("://" : String).data = [':', '/', '/'] from rfl,
        show ("/" : String).data = ['/'] from rfl,
        show ("" : String).data = ([] : List Char) from rfl]
  have hBne : (scheme ++ "://" ++ host ++ "/" ++ interSegs bs
      ++ (if bt then "/" else "")) ≠ "" := by
    intro hh
    have h2 := congrArg String.data hh
    rw [hBdata] at h2
    simp at h2
  have hsplit : splitScheme (scheme ++ "://" ++ host ++ "/" ++ interSegs bs
        ++ (if bt then "/" else "")).data
      = some (scheme.data, host.data ++ '/' ::
          ((interSegs bs).data ++ (if bt then ['/'] else []))) := by
    rw [hBdata]
    exact splitScheme_append scheme.data _ hColon
  have hparse := parseURL_eval _ scheme.data
    (host.data ++ '/' :: ((interSegs bs).data ++ (if bt then ['/'] else [])))
    hsplit hs0
  rw [takeWhile_until_slash _ _ hHost, dropWhile_until_slash _ _ hHost] at hparse
  rw [show String.mk scheme.data = scheme from rfl,
    show String.mk host.data = host from rfl] at hparse
  have hEdata : ((if el then "/" else "") ++ interSegs es
        ++ (if et then "/" else "")).data
      = (if el then ['/'] else []) ++ (interSegs es).data
        ++ (if et then ['/'] else []) := by
    cases el <;> cases et <;>
      simp [String.data_append,
        show ("/" : String).data = ['/'] from rfl,
        show ("" : String).data = ([] : List Char) from rfl]
  unfold Client.GetEndpointURL
  rw [show Client.GetBaseURL
      { Credentials := none,
        BaseURL := scheme ++ "://" ++ host ++ "/" ++ interSegs bs
          ++ (if bt then "/" else "") }
      = scheme ++ "://" ++ host ++ "/" ++ interSegs bs ++ (if bt then "/" else "")
    from by
      unfold Client.GetBaseURL
      rw [if_neg hBne]]
  rw [hparse]
  show some (urlString
      { scheme := scheme
        host := host
        path := pathJoin
          (String.mk ('/' :: ((interSegs bs).data ++ (if bt then ['/'] else []))))
          ((if el then "/" else "") ++ interSegs es ++ (if et then "/" else "")) }) = _
  have hmkne : String.mk ('/' :: ((interSegs bs).data ++ (if bt then ['/'] else []))) ≠ "" := by
    intro hh
    have h2 := congrArg String.data hh
    simp at h2
  have hjoin : pathJoin
      (String.mk ('/' :: ((interSegs bs).data ++ (if bt then ['/'] else []))))
      ((if el then "/" else "") ++ interSegs es ++ (if et then "/" else ""))
      = String.mk (pathCleanList ('/' :: (((interSegs bs).data ++ (if bt then ['/'] else []))
          ++ '/' :: ((if el then ['/'] else []) ++ (interSegs es).data
            ++ (if et then ['/'] else []))))) := by
    unfold pathJoin
    rw [if_pos hmkne]
    unfold pathClean
    congr 2
    rw [String.data_append, String.data_append, hEdata]
    simp [show ("/" : String).data = ['/'] from rfl]
  rw [hjoin]
  have hTchars : ∀ c ∈ (((interSegs bs).data ++ (if bt then ['/'] else []))
      ++ '/' :: ((if el then ['/'] else []) ++ (interSegs es).data
        ++ (if et then ['/'] else []))), c = '/' ∨ isSegChar c = true := by
    intro c hc
    rcases List.mem_append.mp hc with h1 | h2
    · rcases List.mem_append.mp h1 with h3 | h4
      · exact hIbs c h3
      · exact Or.inl (mem_opt_slash bt c h4)
    · rcases List.mem_cons.mp h2 with h3 | h4
      · exact Or.inl h3
      · rcases List.mem_append.mp h4 with h5 | h6
        · rcases List.mem_append.mp h5 with h7 | h8
          · exact Or.inl (mem_opt_slash el c h7)
          · exact hIes c h8
        · exact Or.inl (mem_opt_slash et c h6)
  have hD : dropEmpties (splitSegs ('/' :: (((interSegs bs).data
        ++ (if bt then ['/'] else []))
      ++ '/' :: ((if el then ['/'] else []) ++ (interSegs es).data
        ++ (if et then ['/'] else [])))))
      = bs.map String.data ++ es.map String.data := by
    rw [splitSegs_cons_slash,
      show dropEmpties ([] :: splitSegs ((((interSegs bs).data
          ++ (if bt then ['/'] else []))
        ++ '/' :: ((if el then ['/'] else []) ++ (interSegs es).data
          ++ (if et then ['/'] else [])))))
        = dropEmpties (splitSegs ((((interSegs bs).data
          ++ (if bt then ['/'] else []))
        ++ '/' :: ((if el then ['/'] else []) ++ (interSegs es).data
          ++ (if et then ['/'] else []))))) from by simp [dropEmpties],
      splitSegs_append, dropEmpties_append]
    congr 1
    · rw [interSegs_data]
      cases bt
      · rw [if_neg Bool.false_ne_true, List.append_nil]
        exact dropEmpties_splitSegs_inter _ hbsL
      · rw [if_pos rfl, splitSegs_append,
          dropEmpties_append, dropEmpties_splitSegs_inter _ hbsL]
        simp [splitSegs, dropEmpties]
    · rw [interSegs_data]
      cases el
      · rw [if_neg Bool.false_ne_true, List.nil_append]
        cases et
        · rw [if_neg Bool.false_ne_true, List.append_nil]
          exact dropEmpties_splitSegs_inter _ hesL
        · rw [if_pos rfl, splitSegs_append,
            dropEmpties_append, dropEmpties_splitSegs_inter _ hesL]
          simp [splitSegs, dropEmpties]
      · rw [if_pos rfl, List.singleton_append, List.cons_append, splitSegs_cons_slash,
          show ∀ y, dropEmpties ([] :: y) = dropEmpties y from fun y => by
            simp [dropEmpties]]
        cases et
        · rw [if_neg Bool.false_ne_true, List.append_nil]
          exact dropEmpties_splitSegs_inter _ hesL
        · rw [if_pos rfl, splitSegs_append,
            dropEmpties_append, dropEmpties_splitSegs_inter _ hesL]
          simp [splitSegs, dropEmpties]
  rw [pathCleanList_eval _ hTchars _ hD]
  rcases hcase : bs.map String.data ++ es.map String.data with _ | ⟨s0, ss⟩
  · have hbses : bs ++ es = [] := by
      have hmap : (bs ++ es).map String.data = [] := by
        rw [List.map_append]
        exact hcase
      exact List.map_eq_nil_iff.mp hmap
    rw [if_pos rfl]
    apply congrArg some
    apply string_data_ext
    unfold urlString
    rw [if_neg (fun hand => hand.2.1 rfl)]
    rw [hbses]
    simp [String.data_append,
      show ("://" : String).data = [':', '/', '/'] from rfl,
      show ("/" : String).data = ['/'] from rfl,
      show ("" : String).data = ([] : List Char) from rfl,
      show (interSegs []).data = ([] : List Char) from rfl]
  · rw [if_neg (List.cons_ne_nil s0 ss)]
    apply congrArg some
    apply string_data_ext
    unfold urlString
    rw [if_neg (fun hand => hand.2.1 rfl)]
    have hinter : (interSegs (bs ++ es)).data = interList (s0 :: ss) := by
      rw [interSegs_data, List.map_append, hcase]
    simp [String.data_append, hinter,
      show ("://" : String).data = [':', '/', '/'] from rfl,
      show ("/" : String).data = ['/'] from rfl,
      show ("" : String).data = ([] : List Char) from rfl]

/-- C2 witness: the spec's example - base "https://host/v1" (no trailing
slash) joined with "/path/" (leading and trailing slash) yields
"https://host/v1/path". -/
theorem getEndpointURL_join_normalizes_witness :
    Client.GetEndpointURL { Credentials := none, BaseURL := "https://host/v1" } "/path/"
      = some "https://host/v1/path" := by
  have h := getEndpointURL_join_normalizes "https" "host" ["v1"] ["path"] false true true
    (by decide) (by decide) (by decide) (by decide) (by decide)
  rw [show "https" ++ "://" ++ "host" ++ "/" ++ interSegs ["v1"]
      ++ (if (false : Bool) then "/" else "") = "https://host/v1" from by decide,
    show (if (true : Bool) then "/" else "") ++ interSegs ["path"]
      ++ (if (true : Bool) then "/" else "") = "/path/" from by decide,
    show "https" ++ "://" ++ "host" ++ "/" ++ interSegs (["v1"] ++ ["path"])
      = "https://host/v1/path" from by decide] at h
  exact h

end Superhub

